import Mathlib

/-!
# Book Finder: query construction, result ordering and pagination

A shallow embedding of `src/Book Finder/script.js`.  The script keeps four
global variables (`currentPage`, `booksData`, `lastGenre`, `lastLanguage`) and
writes to three DOM nodes (`#results`, `#prev-btn`, `#next-btn`).  Here they
are the fields of one `State` record, every handler is a function on `State`,
and what a handler sends to the outside (a `fetch`, an `alert`, a
`console.error`) is returned as a list of `Effect`s.  The promise chain of
`fetchBooks` is split in two: `fetchBooks` is the synchronous part that issues
the request, `fetchBooksThen` is the continuation that runs when the response
arrives.

JavaScript numbers that hold ratings are modelled as rationals: every finite
double is a rational, and the sign of the double difference `b - a` that the
comparator returns is the sign of the exact difference.  `currentPage` is an
integer.
-/

namespace BookFinder

/-! ## Data model -/

/-- The `imageLinks` object of a volume; its `thumbnail` member may be missing. -/
structure ImageLinks where
  thumbnail : Option String
  deriving DecidableEq, Repr

/-- The `volumeInfo` object of an API item.  A member that is missing in the
JSON document (`undefined` when read) is `none`. -/
structure VolumeInfo where
  title : Option String
  authors : Option (List String)
  imageLinks : Option ImageLinks
  infoLink : Option String
  averageRating : Option ℚ
  deriving DecidableEq, Repr

/-- One element of `data.items`. -/
structure Book where
  volumeInfo : VolumeInfo
  deriving DecidableEq, Repr

/-- The text of the rating line of a card: `stars r` stands for the template
literal that prints the number `r` followed by the star mark, `noRating` for
the string "No Rating". -/
inductive RatingLabel where
  | stars (r : ℚ)
  | noRating
  deriving DecidableEq, Repr

/-- The five constants `displayBooks` computes for one book before it builds
the card markup.  `thumbnail` is `none` when the constant holds `undefined`. -/
structure Card where
  title : String
  authors : String
  thumbnail : Option String
  infoLink : String
  rating : RatingLabel
  deriving DecidableEq, Repr

/-- Content of the `#results` node. -/
inductive ResultsView where
  | untouched
  | loading
  | cards (cs : List Card)
  | noBook
  deriving DecidableEq, Repr

/-- The global variables of the script together with the DOM properties it
writes. -/
structure State where
  currentPage : Int
  booksData : List Book
  lastGenre : String
  lastLanguage : String
  resultsView : ResultsView
  prevDisabled : Bool
  nextDisabled : Bool
  deriving DecidableEq, Repr

/-- What a handler sends outside the script. -/
inductive Effect where
  | fetch (url : String) (isRecommended : Bool)
  | alert (msg : String)
  | consoleError
  deriving DecidableEq, Repr

/-- Outcome of `fetch(url).then(response => response.json())`: the promise is
rejected (network or parse failure), or it yields a document whose `items`
member may be missing. -/
inductive FetchResult where
  | failed
  | parsed (items : Option (List Book))
  deriving DecidableEq, Repr

/-- Number of books displayed per page. -/
def resultsPerPage : Int := 9

/-! ## JavaScript primitives used by the script -/

/-- `s || d` for a possibly missing string: the empty string is falsy. -/
def strOr (s : Option String) (d : String) : String :=
  match s with
  | some t => if t = "" then d else t
  | none => d

/-- `r || 0` for a possibly missing number: `0` is falsy. -/
def numOrZero (r : Option ℚ) : ℚ :=
  match r with
  | some x => if x = 0 then 0 else x
  | none => 0

/-- `Array.prototype.join(sep)` on an array of strings. -/
def jsJoin (sep : String) : List String → String
  | [] => ""
  | [a] => a
  | a :: b :: rest => a ++ sep ++ jsJoin sep (b :: rest)

/-- Resolution of a relative index of `Array.prototype.slice` against the
array length: a negative index counts from the end, and the result is clamped
to `[0, len]`. -/
def relIndex (i : Int) (len : Nat) : Nat :=
  if i < 0 then (len + i).toNat else min i.toNat len

/-- `Array.prototype.slice(start, end)`. -/
def jsSlice {α : Type} (xs : List α) (start stop : Int) : List α :=
  let k := relIndex start xs.length
  let final := relIndex stop xs.length
  (xs.drop k).take (final - k)

/-- Insertion of `x` in front of a sorted tail: `x` moves past `y` only when
the comparator says `x` sorts after `y` (`cmp x y > 0`). -/
def jsSortInsert {α : Type} (cmp : α → α → ℚ) (x : α) : List α → List α
  | [] => [x]
  | y :: ys => if 0 < cmp x y then y :: jsSortInsert cmp x ys else x :: y :: ys

/-- `Array.prototype.sort(cmp)`.  The language standard requires the sort to be
stable, so for a consistent comparator the result does not depend on the
algorithm; it is computed here by insertion from the right. -/
def jsSort {α : Type} (cmp : α → α → ℚ) : List α → List α
  | [] => []
  | x :: xs => jsSortInsert cmp x (jsSort cmp xs)

/-- The characters `String.prototype.trim` removes (white space and line
terminators of the language standard). -/
def isJsWhitespace (c : Char) : Bool :=
  let n := c.toNat
  n = 0x9 || n = 0xA || n = 0xB || n = 0xC || n = 0xD ||
  n = 0x20 || n = 0xA0 || n = 0x1680 ||
  (0x2000 ≤ n && n ≤ 0x200A) ||
  n = 0x2028 || n = 0x2029 || n = 0x202F || n = 0x205F ||
  n = 0x3000 || n = 0xFEFF

/-- `String.prototype.trim` on the character list of a string. -/
def jsTrimChars (cs : List Char) : List Char :=
  ((cs.dropWhile isJsWhitespace).reverse.dropWhile isJsWhitespace).reverse

/-- `String.prototype.trim`. -/
def jsTrim (s : String) : String :=
  String.mk (jsTrimChars s.data)

/-- The class `\d`: an ASCII digit. -/
def isAsciiDigit (c : Char) : Bool :=
  0x30 ≤ c.toNat && c.toNat ≤ 0x39

/-- The test `/^\d+$/.test(query)`: at least one character, all of them digits. -/
def allDigits (s : String) : Bool :=
  !s.data.isEmpty && s.data.all isAsciiDigit

/-! ## The script -/

/-- The comparator passed to `sort` in `fetchBooks`. -/
def ratingCompare (a b : Book) : ℚ :=
  numOrZero b.volumeInfo.averageRating - numOrZero a.volumeInfo.averageRating

/-- The body of the `forEach` callback of `displayBooks` up to the markup. -/
def bookCard (book : Book) : Card :=
  let volumeInfo := book.volumeInfo
  { title := strOr volumeInfo.title "No Title Available"
    authors := match volumeInfo.authors with
      | some as => jsJoin ", " as
      | none => "Unknown Author"
    thumbnail := match volumeInfo.imageLinks with
      | some links => links.thumbnail
      | none => some "https://via.placeholder.com/120x180"
    infoLink := strOr volumeInfo.infoLink "#"
    rating := match volumeInfo.averageRating with
      | some r => if r = 0 then RatingLabel.noRating else RatingLabel.stars r
      | none => RatingLabel.noRating }

/-- The constant `booksToShow` of `displayBooks`: the page slice. -/
def getCurrentPage (s : State) : List Book :=
  let start := s.currentPage * resultsPerPage
  let stop := start + resultsPerPage
  jsSlice s.booksData start stop

/-- `displayBooks()`. -/
def displayBooks (s : State) : State :=
  let start := s.currentPage * resultsPerPage
  let stop := start + resultsPerPage
  let booksToShow := jsSlice s.booksData start stop
  { s with
    resultsView := ResultsView.cards (booksToShow.map bookCard)
    prevDisabled := decide (s.currentPage = 0)
    nextDisabled := decide (s.booksData.length = 0) ||
      decide ((s.booksData.length : Int) ≤ stop) }

/-- `nextPage()`. -/
def nextPage (s : State) : State :=
  if (s.currentPage + 1) * resultsPerPage < s.booksData.length then
    displayBooks { s with currentPage := s.currentPage + 1 }
  else s

/-- `prevPage()`. -/
def prevPage (s : State) : State :=
  if 0 < s.currentPage then
    displayBooks { s with currentPage := s.currentPage - 1 }
  else s

/-- The URL `fetchBooks` builds from its query. -/
def fetchUrl (query : String) : String :=
  "https://www.googleapis.com/books/v1/volumes?q=" ++ query ++ "&maxResults=40"

/-- `fetchBooks(query, isRecommended)`, synchronous part: the loading
placeholder is shown and the request is issued. -/
def fetchBooks (query : String) (isRecommended : Bool) (s : State) :
    State × List Effect :=
  ({ s with resultsView := ResultsView.loading },
   [Effect.fetch (fetchUrl query) isRecommended])

/-- `fetchBooks`, the continuation that runs when the request of a call with
flag `isRecommended` settles. -/
def fetchBooksThen (isRecommended : Bool) (r : FetchResult) (s : State) :
    State × List Effect :=
  match r with
  | FetchResult.failed => (s, [Effect.consoleError])
  | FetchResult.parsed items =>
    match items with
    | some (b :: bs) =>
      let booksData := if isRecommended then jsSort ratingCompare (b :: bs) else b :: bs
      (displayBooks { s with booksData := booksData, currentPage := 0 }, [])
    | _ =>
      ({ s with booksData := [], resultsView := ResultsView.noBook, nextDisabled := true }, [])

/-- `fetchHighestRatedBooks()`. -/
def fetchHighestRatedBooks (s : State) : State × List Effect :=
  fetchBooks "bestseller" true s

/-- `updateBooks()`. -/
def updateBooks (s : State) : State × List Effect :=
  let query := if s.lastGenre = "" then "bestseller" else s.lastGenre
  let query := if s.lastLanguage = "" then query
    else query ++ ("&langRestrict=" ++ s.lastLanguage)
  fetchBooks query false s

/-- `checkFilters()`; `genre` and `language` are the values read from the two
filter controls. -/
def checkFilters (genre language : String) (s : State) : State × List Effect :=
  if genre ≠ s.lastGenre ∨ language ≠ s.lastLanguage then
    updateBooks { s with lastGenre := genre, lastLanguage := language }
  else (s, [])

/-- `searchBooks()`; `text` is the value read from the search box. -/
def searchBooks (text : String) (s : State) : State × List Effect :=
  let query := jsTrim text
  if query = "" then fetchHighestRatedBooks s
  else if allDigits query then (s, [Effect.alert "Please input a valid book title"])
  else fetchBooks query false s

/-! ## Events and runs -/

/-- The events the script reacts to: the page load, Enter in the search box
(with the text of the box), a change of a filter control (with the values of
both controls), the settling of a request issued by a `fetchBooks` call with
the given flag, and a click on one of the two pagination buttons. -/
inductive Event where
  | pageLoad
  | search (text : String)
  | filter (genre language : String)
  | response (isRecommended : Bool) (r : FetchResult)
  | next
  | prev
  deriving DecidableEq, Repr

/-- The handler the script runs on an event, with its effects. -/
def handle (e : Event) (s : State) : State × List Effect :=
  match e with
  | Event.pageLoad => fetchHighestRatedBooks s
  | Event.search text => searchBooks text s
  | Event.filter genre language => checkFilters genre language s
  | Event.response isRecommended r => fetchBooksThen isRecommended r s
  | Event.next => (nextPage s, [])
  | Event.prev => (prevPage s, [])

/-- The state after an event. -/
def step (s : State) (e : Event) : State :=
  (handle e s).1

/-- The state after a sequence of events, oldest first. -/
def run (es : List Event) (s : State) : State :=
  es.foldl step s

/-- The globals as the script initialises them; the DOM as the page provides it. -/
def initialState : State :=
  { currentPage := 0, booksData := [], lastGenre := "", lastLanguage := "",
    resultsView := ResultsView.untouched, prevDisabled := false, nextDisabled := false }

/-- The state invariant of the data model. -/
def PageInvariant (s : State) : Prop :=
  0 ≤ s.currentPage ∧
    (s.booksData ≠ [] → s.currentPage * resultsPerPage < s.booksData.length)

/-- The states a user walks through by clicking "next" until the click does
nothing, starting at `s`; `fuel` bounds the number of clicks. -/
def visit : Nat → State → List State
  | 0, s => [s]
  | fuel + 1, s => if nextPage s = s then [s] else s :: visit fuel (nextPage s)

/-- Browsing from `s` to the last page; the number of results bounds the
number of clicks. -/
def browse (s : State) : List State :=
  visit s.booksData.length s

/-- A rating with a missing value counted as 0, as the data model words it. -/
def effectiveRating (b : Book) : ℚ :=
  b.volumeInfo.averageRating.getD 0

/-! ## Sample data -/

/-- A book that carries only a title, the decimal numeral of `i`. -/
def numbered (i : Nat) : Book :=
  { volumeInfo := { title := some (toString i), authors := none, imageLinks := none,
                    infoLink := none, averageRating := none } }

/-- A book that carries a title and, possibly, a rating. -/
def rated (title : String) (r : Option ℚ) : Book :=
  { volumeInfo := { title := some title, authors := none, imageLinks := none,
                    infoLink := none, averageRating := r } }

/-- A book with every field of the data model. -/
def fullBook : Book :=
  { volumeInfo :=
    { title := some "Dune", authors := some ["Frank Herbert", "Brian Herbert"],
      imageLinks := some { thumbnail := some "http://books.example/dune.jpg" },
      infoLink := some "http://books.example/dune", averageRating := some (9 / 2) } }

/-- A book with no field at all. -/
def bareBook : Book :=
  { volumeInfo := { title := none, authors := none, imageLinks := none,
                    infoLink := none, averageRating := none } }

/-- Four books, two of them with the same rating and one without a rating. -/
def fourRated : List Book :=
  [rated "a" (some 3), rated "b" none, rated "c" (some (9 / 2)), rated "d" (some 3)]

/-- A session: a search returns twenty books, the user clicks "next" three
times. -/
def sessionEvents : List Event :=
  [Event.search "dune",
   Event.response false (FetchResult.parsed (some ((List.range 20).map numbered))),
   Event.next, Event.next, Event.next]

/-- The state after a search returned twenty books and the user clicked "next"
once and then submitted another search. -/
def secondPageOfTwenty : State :=
  run [Event.search "dune",
       Event.response false (FetchResult.parsed (some ((List.range 20).map numbered))),
       Event.next,
       Event.search "qqqq"] initialState

/-- Twenty results, the first page showing. -/
def twentyOnPageZero : State :=
  { initialState with booksData := (List.range 20).map numbered }

/-- Twenty results, the third page showing. -/
def twentyOnPageTwo : State :=
  { initialState with currentPage := 2, booksData := (List.range 20).map numbered }

/-! ## Page slices -/

theorem relIndex_natCast (a len : Nat) : relIndex (a : Int) len = min a len := by
  unfold relIndex
  split <;> omega

/-- For non-negative bounds `slice` drops `a` elements and keeps `b - a`. -/
theorem jsSlice_natCast {α : Type} (xs : List α) (a b : Nat) :
    jsSlice xs (a : Int) (b : Int) = (xs.drop a).take (b - a) := by
  unfold jsSlice
  simp only [relIndex_natCast]
  rcases Nat.lt_or_ge a xs.length with h | h
  · rw [Nat.min_eq_left (Nat.le_of_lt h)]
    apply List.ext_getElem
    · simp only [List.length_take, List.length_drop]; omega
    · intro i h1 h2
      simp
  · rw [List.drop_eq_nil_of_le (by omega : xs.length ≤ min a xs.length),
      List.drop_eq_nil_of_le h]
    simp

theorem getCurrentPage_nonneg (s : State) (h : 0 ≤ s.currentPage) :
    getCurrentPage s = (s.booksData.drop (s.currentPage.toNat * 9)).take 9 := by
  obtain ⟨n, hn⟩ := Int.eq_ofNat_of_zero_le h
  unfold getCurrentPage resultsPerPage
  simp only [hn]
  have e1 : (n : Int) * 9 = ((n * 9 : Nat) : Int) := by push_cast; rfl
  have e2 : (n : Int) * 9 + 9 = ((n * 9 + 9 : Nat) : Int) := by push_cast; rfl
  rw [e2, e1, jsSlice_natCast]
  simp

/-- A slice is a contiguous run of the list it is taken from. -/
theorem jsSlice_contiguous {α : Type} (xs : List α) (a b : Int) :
    ∃ pre post, xs = pre ++ jsSlice xs a b ++ post := by
  refine ⟨xs.take (relIndex a xs.length),
    (xs.drop (relIndex a xs.length)).drop (relIndex b xs.length - relIndex a xs.length), ?_⟩
  unfold jsSlice
  rw [List.append_assoc, List.take_append_drop, List.take_append_drop]

/-- C1. In every state whose page index is not negative, the page slice that
`displayBooks` computes and renders is `results[currentPage*9 : currentPage*9 + 9]`,
that is, what is left of the first nine results after dropping `currentPage*9`
of them.  In every state it has at most nine items, is a contiguous run of the
results in their order, holds no item that is not a result, and is empty when
there are no results. -/
theorem getCurrentPage_is_page_slice (s : State) :
    (0 ≤ s.currentPage →
      getCurrentPage s = (s.booksData.drop (s.currentPage.toNat * 9)).take 9) ∧
    (displayBooks s).resultsView = ResultsView.cards ((getCurrentPage s).map bookCard) ∧
    (getCurrentPage s).length ≤ 9 ∧
    (∃ pre post, s.booksData = pre ++ getCurrentPage s ++ post) ∧
    (∀ b ∈ getCurrentPage s, b ∈ s.booksData) ∧
    (s.booksData = [] → getCurrentPage s = []) := by
  refine ⟨getCurrentPage_nonneg s, rfl, ?_, jsSlice_contiguous _ _ _, ?_, ?_⟩
  · unfold getCurrentPage jsSlice relIndex resultsPerPage
    simp only [List.length_take, List.length_drop]
    split <;> split <;> omega
  · intro b hb
    obtain ⟨pre, post, h⟩ := jsSlice_contiguous s.booksData (s.currentPage * resultsPerPage)
      (s.currentPage * resultsPerPage + resultsPerPage)
    rw [h]
    simp only [List.mem_append]
    exact Or.inl (Or.inr hb)
  · intro h
    simp [getCurrentPage, jsSlice, h]

/-- C1, witness: twenty results and page index 2 give the two items at
indices 18 and 19. -/
theorem getCurrentPage_is_page_slice_witness :
    (0 : Int) ≤ twentyOnPageTwo.currentPage ∧
    twentyOnPageTwo.booksData.length = 20 ∧
    getCurrentPage twentyOnPageTwo = [numbered 18, numbered 19] ∧
    getCurrentPage twentyOnPageTwo =
      (twentyOnPageTwo.booksData.drop (twentyOnPageTwo.currentPage.toNat * 9)).take 9 :=
  ⟨by decide, by decide, by decide,
    (getCurrentPage_is_page_slice twentyOnPageTwo).1 (by decide)⟩

/-! ## Pagination -/

theorem displayBooks_currentPage (s : State) :
    (displayBooks s).currentPage = s.currentPage := rfl

theorem displayBooks_booksData (s : State) :
    (displayBooks s).booksData = s.booksData := rfl

theorem nextPage_of_room (s : State)
    (h : (s.currentPage + 1) * resultsPerPage < s.booksData.length) :
    nextPage s = displayBooks { s with currentPage := s.currentPage + 1 } := by
  unfold nextPage
  rw [if_pos h]

theorem nextPage_of_no_room (s : State)
    (h : ¬ (s.currentPage + 1) * resultsPerPage < s.booksData.length) :
    nextPage s = s := by
  unfold nextPage
  rw [if_neg h]

theorem prevPage_of_pos (s : State) (h : 0 < s.currentPage) :
    prevPage s = displayBooks { s with currentPage := s.currentPage - 1 } := by
  unfold prevPage
  rw [if_pos h]

theorem prevPage_of_not_pos (s : State) (h : ¬ 0 < s.currentPage) :
    prevPage s = s := by
  unfold prevPage
  rw [if_neg h]

/-- The click on "next" does nothing exactly when its guard fails. -/
theorem nextPage_eq_self_iff (s : State) :
    nextPage s = s ↔ ¬ (s.currentPage + 1) * resultsPerPage < s.booksData.length := by
  constructor
  · intro h hroom
    have hc : (nextPage s).currentPage = s.currentPage + 1 := by
      rw [nextPage_of_room s hroom]; rfl
    rw [h] at hc
    omega
  · exact nextPage_of_no_room s

/-- The click on "previous" does nothing exactly when its guard fails. -/
theorem prevPage_eq_self_iff (s : State) :
    prevPage s = s ↔ ¬ 0 < s.currentPage := by
  constructor
  · intro h hpos
    have hc : (prevPage s).currentPage = s.currentPage - 1 := by
      rw [prevPage_of_pos s hpos]; rfl
    rw [h] at hc
    omega
  · exact prevPage_of_not_pos s

theorem iterate_of_fixed {α : Type} (f : α → α) (a : α) (h : f a = a) (n : Nat) :
    f^[n] a = a := by
  induction n with
  | zero => rfl
  | succ n ih => rw [Function.iterate_succ_apply, h, ih]

theorem nextPage_booksData (s : State) : (nextPage s).booksData = s.booksData := by
  unfold nextPage
  split <;> rfl

theorem prevPage_booksData (s : State) : (prevPage s).booksData = s.booksData := by
  unfold prevPage
  split <;> rfl

/-- C2. `nextPage` leaves the state as it is when `(currentPage+1)*9` reaches
the number of results and otherwise adds exactly 1 to `currentPage`; neither
`nextPage` nor `prevPage` touches the results; a click that does nothing keeps
doing nothing however often it is repeated.  With a page index that is not
negative, `prevPage` leaves the state as it is at page 0 and otherwise
subtracts exactly 1, and the two flags `displayBooks` computes are set exactly
in the states where the click on that button does nothing. -/
theorem pagination_boundary_rule (s : State) :
    ((s.booksData.length : Int) ≤ (s.currentPage + 1) * 9 → nextPage s = s) ∧
    ((s.currentPage + 1) * 9 < s.booksData.length →
      (nextPage s).currentPage = s.currentPage + 1) ∧
    (nextPage s).booksData = s.booksData ∧
    (prevPage s).booksData = s.booksData ∧
    (∀ n : Nat, (s.booksData.length : Int) ≤ (s.currentPage + 1) * 9 →
      nextPage^[n] s = s) ∧
    (0 ≤ s.currentPage →
      (s.currentPage = 0 → prevPage s = s) ∧
      (s.currentPage ≠ 0 → (prevPage s).currentPage = s.currentPage - 1) ∧
      (∀ n : Nat, s.currentPage = 0 → prevPage^[n] s = s) ∧
      ((displayBooks s).nextDisabled = true ↔ nextPage s = s) ∧
      ((displayBooks s).nextDisabled = true ↔
        nextPage (displayBooks s) = displayBooks s) ∧
      ((displayBooks s).prevDisabled = true ↔ prevPage s = s) ∧
      ((displayBooks s).prevDisabled = true ↔
        prevPage (displayBooks s) = displayBooks s)) := by
  have hnext : (s.booksData.length : Int) ≤ (s.currentPage + 1) * 9 → nextPage s = s := by
    intro h
    apply nextPage_of_no_room
    unfold resultsPerPage
    omega
  refine ⟨hnext, ?_, nextPage_booksData s, prevPage_booksData s, ?_, ?_⟩
  · intro h
    rw [nextPage_of_room s (by unfold resultsPerPage; omega)]
    rfl
  · intro n h
    exact iterate_of_fixed nextPage s (hnext h) n
  · intro hpos
    have hprev : s.currentPage = 0 → prevPage s = s := by
      intro h
      apply prevPage_of_not_pos
      omega
    have hflagN : (displayBooks s).nextDisabled = true ↔
        ¬ (s.currentPage + 1) * resultsPerPage < s.booksData.length := by
      simp only [displayBooks, resultsPerPage, Bool.or_eq_true, decide_eq_true_eq]
      omega
    have hflagP : (displayBooks s).prevDisabled = true ↔ ¬ 0 < s.currentPage := by
      simp only [displayBooks, decide_eq_true_eq]
      omega
    refine ⟨hprev, ?_, ?_, ?_, ?_, ?_, ?_⟩
    · intro h
      rw [prevPage_of_pos s (by omega)]
      rfl
    · intro n h
      exact iterate_of_fixed prevPage s (hprev h) n
    · rw [hflagN, nextPage_eq_self_iff]
    · rw [hflagN, nextPage_eq_self_iff, displayBooks_currentPage, displayBooks_booksData]
    · rw [hflagP, prevPage_eq_self_iff]
    · rw [hflagP, prevPage_eq_self_iff, displayBooks_currentPage]

/-- C2, witness: with twenty results on page index 2 "next" is disabled and
does nothing, "previous" is enabled and goes back to page index 1. -/
theorem pagination_boundary_rule_witness :
    (0 : Int) ≤ twentyOnPageTwo.currentPage ∧
    (displayBooks twentyOnPageTwo).nextDisabled = true ∧
    (displayBooks twentyOnPageTwo).prevDisabled = false ∧
    nextPage twentyOnPageTwo = twentyOnPageTwo ∧
    (prevPage twentyOnPageTwo).currentPage = 1 ∧
    ((displayBooks twentyOnPageTwo).nextDisabled = true ↔
      nextPage twentyOnPageTwo = twentyOnPageTwo) :=
  ⟨by decide, by decide, by decide, by decide, by decide,
    ((pagination_boundary_rule twentyOnPageTwo).2.2.2.2.2 (by decide)).2.2.2.1⟩

/-! ## The rating sort -/

/-- The code's `rating || 0` is the rating with a missing value counted as 0. -/
theorem numOrZero_eq_effectiveRating (b : Book) :
    numOrZero b.volumeInfo.averageRating = effectiveRating b := by
  unfold numOrZero effectiveRating
  cases h : b.volumeInfo.averageRating with
  | none => rfl
  | some x =>
    by_cases hx : x = 0
    · simp [hx]
    · simp [hx]

theorem ratingCompare_pos_iff (x y : Book) :
    0 < ratingCompare x y ↔ effectiveRating x < effectiveRating y := by
  unfold ratingCompare
  rw [numOrZero_eq_effectiveRating, numOrZero_eq_effectiveRating]
  exact sub_pos

theorem jsSortInsert_perm {α : Type} (cmp : α → α → ℚ) (x : α) (l : List α) :
    (jsSortInsert cmp x l).Perm (x :: l) := by
  induction l with
  | nil => exact List.Perm.refl _
  | cons y ys ih =>
    unfold jsSortInsert
    split
    · exact (List.Perm.cons y ih).trans (List.Perm.swap x y ys)
    · exact List.Perm.refl _

theorem jsSort_perm {α : Type} (cmp : α → α → ℚ) (l : List α) :
    (jsSort cmp l).Perm l := by
  induction l with
  | nil => exact List.Perm.refl _
  | cons x xs ih =>
    exact (jsSortInsert_perm cmp x (jsSort cmp xs)).trans (List.Perm.cons x ih)

theorem jsSortInsert_descending (x : Book) (l : List Book)
    (hl : l.Pairwise (fun a b => effectiveRating b ≤ effectiveRating a)) :
    (jsSortInsert ratingCompare x l).Pairwise
      (fun a b => effectiveRating b ≤ effectiveRating a) := by
  induction l with
  | nil => simp [jsSortInsert]
  | cons y ys ih =>
    rw [List.pairwise_cons] at hl
    unfold jsSortInsert
    split
    · rename_i hxy
      rw [ratingCompare_pos_iff] at hxy
      rw [List.pairwise_cons]
      refine ⟨?_, ih hl.2⟩
      intro z hz
      rcases List.mem_cons.1 ((jsSortInsert_perm ratingCompare x ys).mem_iff.1 hz) with hz | hz
      · rw [hz]
        exact le_of_lt hxy
      · exact hl.1 z hz
    · rename_i hxy
      rw [ratingCompare_pos_iff, not_lt] at hxy
      rw [List.pairwise_cons]
      refine ⟨?_, List.pairwise_cons.2 hl⟩
      intro z hz
      rcases List.mem_cons.1 hz with hz | hz
      · rw [hz]; exact hxy
      · exact le_trans (hl.1 z hz) hxy

theorem jsSort_descending (l : List Book) :
    (jsSort ratingCompare l).Pairwise
      (fun a b => effectiveRating b ≤ effectiveRating a) := by
  induction l with
  | nil => simp [jsSort]
  | cons x xs ih => exact jsSortInsert_descending x _ ih

/-- Inserting a book does not disturb the books of any one rating: the new
book, if it has that rating, comes in front of them. -/
theorem jsSortInsert_filter (v : ℚ) (x : Book) (l : List Book) :
    (jsSortInsert ratingCompare x l).filter (fun b => decide (effectiveRating b = v)) =
      (x :: l).filter (fun b => decide (effectiveRating b = v)) := by
  induction l with
  | nil => rfl
  | cons y ys ih =>
    unfold jsSortInsert
    split
    · rename_i hxy
      rw [ratingCompare_pos_iff] at hxy
      rw [List.filter_cons, ih]
      by_cases hx : effectiveRating x = v
      · have hy : ¬ effectiveRating y = v := by
          intro hy
          rw [hx, hy] at hxy
          exact lt_irrefl v hxy
        simp [List.filter_cons, hx, hy]
      · by_cases hy : effectiveRating y = v <;> simp [List.filter_cons, hx, hy]
    · rfl

theorem jsSort_filter (v : ℚ) (l : List Book) :
    (jsSort ratingCompare l).filter (fun b => decide (effectiveRating b = v)) =
      l.filter (fun b => decide (effectiveRating b = v)) := by
  induction l with
  | nil => rfl
  | cons x xs ih =>
    show (jsSortInsert ratingCompare x (jsSort ratingCompare xs)).filter _ = _
    rw [jsSortInsert_filter, List.filter_cons, List.filter_cons, ih]

/-- Two books of equal rating that follow one another in the input follow one
another in the same order in the output. -/
theorem jsSort_keeps_pair (a b : Book) (l : List Book)
    (hab : effectiveRating a = effectiveRating b) (h : List.Sublist [a, b] l) :
    List.Sublist [a, b] (jsSort ratingCompare l) := by
  have h1 := h.filter (fun c => decide (effectiveRating c = effectiveRating b))
  have h2 : [a, b].filter (fun c => decide (effectiveRating c = effectiveRating b)) = [a, b] := by
    simp [List.filter_cons, hab]
  rw [h2, ← jsSort_filter (effectiveRating b) l] at h1
  exact h1.trans (List.filter_sublist _)

/-- A descending list is determined by its per-rating subsequences. -/
theorem descending_eq_of_filter_eq (l₁ l₂ : List Book)
    (h₁ : l₁.Pairwise (fun a b => effectiveRating b ≤ effectiveRating a))
    (h₂ : l₂.Pairwise (fun a b => effectiveRating b ≤ effectiveRating a))
    (hf : ∀ v : ℚ, l₁.filter (fun b => decide (effectiveRating b = v)) =
      l₂.filter (fun b => decide (effectiveRating b = v))) :
    l₁ = l₂ := by
  induction l₁ generalizing l₂ with
  | nil =>
    cases l₂ with
    | nil => rfl
    | cons c u =>
      have h := hf (effectiveRating c)
      simp [List.filter_cons] at h
  | cons a t ih =>
    cases l₂ with
    | nil =>
      have h := hf (effectiveRating a)
      simp [List.filter_cons] at h
    | cons c u =>
      rw [List.pairwise_cons] at h₁ h₂
      have hac : effectiveRating a ≤ effectiveRating c := by
        have hmem : a ∈ (c :: u).filter (fun b => decide (effectiveRating b = effectiveRating a)) := by
          rw [← hf (effectiveRating a)]
          simp [List.filter_cons]
        rcases List.mem_cons.1 (List.mem_filter.1 hmem).1 with e | e
        · rw [e]
        · exact h₂.1 a e
      have hca : effectiveRating c ≤ effectiveRating a := by
        have hmem : c ∈ (a :: t).filter (fun b => decide (effectiveRating b = effectiveRating c)) := by
          rw [hf (effectiveRating c)]
          simp [List.filter_cons]
        rcases List.mem_cons.1 (List.mem_filter.1 hmem).1 with e | e
        · rw [e]
        · exact h₁.1 c e
      have hrate : effectiveRating c = effectiveRating a := le_antisymm hca hac
      have hhead := hf (effectiveRating a)
      simp only [List.filter_cons, hrate, decide_True, if_true, List.cons.injEq] at hhead
      have htail : ∀ v : ℚ, t.filter (fun b => decide (effectiveRating b = v)) =
          u.filter (fun b => decide (effectiveRating b = v)) := by
        intro v
        by_cases hv : effectiveRating a = v
        · rw [← hv]
          exact hhead.2
        · have h := hf v
          simpa [List.filter_cons, hrate, hv] using h
      rw [hhead.1, ih u h₁.2 h₂.2 htail]

/-- The outcome of the rating sort does not depend on the sorting algorithm:
any descending arrangement that keeps the books of each rating in their input
order is the list `jsSort` computes. -/
theorem jsSort_unique (items out : List Book)
    (hd : out.Pairwise (fun a b => effectiveRating b ≤ effectiveRating a))
    (hs : ∀ v : ℚ, out.filter (fun b => decide (effectiveRating b = v)) =
      items.filter (fun b => decide (effectiveRating b = v))) :
    out = jsSort ratingCompare items :=
  descending_eq_of_filter_eq out _ hd (jsSort_descending items)
    (fun v => (hs v).trans (jsSort_filter v items).symm)

theorem fetchBooksThen_recommended (s : State) (items : List Book) (h : items ≠ []) :
    fetchBooksThen true (FetchResult.parsed (some items)) s =
      (displayBooks { s with booksData := jsSort ratingCompare items, currentPage := 0 }, []) := by
  cases items with
  | nil => exact absurd rfl h
  | cons b bs => rfl

/-- C3. When a request of the recommended flow returns a non-empty list of
items, the stored results are a permutation of the items, in descending order
of rating with a missing rating counted as 0, and stable: for every rating
value the books of that rating appear in the stored results in the order they
had in the response, so any two books of equal rating keep their relative
order. -/
theorem recommended_sort_is_stable_descending (s : State) (items : List Book)
    (h : items ≠ []) :
    ((fetchBooksThen true (FetchResult.parsed (some items)) s).1.booksData).Perm items ∧
    ((fetchBooksThen true (FetchResult.parsed (some items)) s).1.booksData).Pairwise
      (fun a b => effectiveRating b ≤ effectiveRating a) ∧
    (∀ v : ℚ,
      ((fetchBooksThen true (FetchResult.parsed (some items)) s).1.booksData).filter
          (fun b => decide (effectiveRating b = v)) =
        items.filter (fun b => decide (effectiveRating b = v))) ∧
    (∀ a b : Book, effectiveRating a = effectiveRating b → List.Sublist [a, b] items →
      List.Sublist [a, b]
        (fetchBooksThen true (FetchResult.parsed (some items)) s).1.booksData) := by
  rw [fetchBooksThen_recommended s items h]
  exact ⟨jsSort_perm _ _, jsSort_descending _, fun v => jsSort_filter v _,
    fun a b hab hs => jsSort_keeps_pair a b _ hab hs⟩

/-- C3, witness: of four books rated 3, none, 4.5 and 3 the one rated 4.5 comes
first, the two rated 3 follow in their order, the unrated one is last. -/
theorem recommended_sort_is_stable_descending_witness :
    fourRated ≠ [] ∧
    (fetchBooksThen true (FetchResult.parsed (some fourRated)) initialState).1.booksData =
      [rated "c" (some (9 / 2)), rated "a" (some 3), rated "d" (some 3), rated "b" none] ∧
    ((fetchBooksThen true (FetchResult.parsed (some fourRated)) initialState).1.booksData).Perm
      fourRated :=
  ⟨by decide,
    by
      norm_num [fetchBooksThen, fourRated, displayBooks, jsSort, jsSortInsert, ratingCompare,
        numOrZero, rated],
    (recommended_sort_is_stable_descending initialState fourRated (by decide)).1⟩

/-! ## Fetch responses and the state invariant -/

/-- What the response continuation stores when the response carries items. -/
theorem fetchBooksThen_items (isRecommended : Bool) (s : State) (b : Book) (bs : List Book) :
    (fetchBooksThen isRecommended (FetchResult.parsed (some (b :: bs))) s).1.currentPage = 0 ∧
    (fetchBooksThen isRecommended (FetchResult.parsed (some (b :: bs))) s).1.booksData =
      (if isRecommended then jsSort ratingCompare (b :: bs) else b :: bs) :=
  ⟨rfl, rfl⟩

/-- What the response continuation does when the response carries no item. -/
theorem fetchBooksThen_no_items (isRecommended : Bool) (s : State) (items : Option (List Book))
    (h : items = none ∨ items = some []) :
    fetchBooksThen isRecommended (FetchResult.parsed items) s =
      ({ s with booksData := [], resultsView := ResultsView.noBook, nextDisabled := true }, []) := by
  rcases h with h | h <;> rw [h] <;> rfl

theorem fetchBooks_keeps (query : String) (isRecommended : Bool) (s : State) :
    (fetchBooks query isRecommended s).1.currentPage = s.currentPage ∧
    (fetchBooks query isRecommended s).1.booksData = s.booksData :=
  ⟨rfl, rfl⟩

theorem searchBooks_keeps (text : String) (s : State) :
    (searchBooks text s).1.currentPage = s.currentPage ∧
    (searchBooks text s).1.booksData = s.booksData := by
  unfold searchBooks
  simp only
  split
  · exact ⟨rfl, rfl⟩
  · split <;> exact ⟨rfl, rfl⟩

theorem checkFilters_keeps (genre language : String) (s : State) :
    (checkFilters genre language s).1.currentPage = s.currentPage ∧
    (checkFilters genre language s).1.booksData = s.booksData := by
  unfold checkFilters
  split <;> exact ⟨rfl, rfl⟩

theorem pageInvariant_of_keeps (s t : State) (hc : t.currentPage = s.currentPage)
    (hb : t.booksData = s.booksData) (h : PageInvariant s) : PageInvariant t := by
  unfold PageInvariant at *
  rw [hc, hb]
  exact h

theorem pageInvariant_fetchBooksThen (isRecommended : Bool) (r : FetchResult) (s : State)
    (h : PageInvariant s) : PageInvariant (fetchBooksThen isRecommended r s).1 := by
  cases r with
  | failed => exact h
  | parsed items =>
    match items with
    | none => exact ⟨h.1, fun hne => absurd rfl hne⟩
    | some [] => exact ⟨h.1, fun hne => absurd rfl hne⟩
    | some (b :: bs) =>
      obtain ⟨hc, hb⟩ := fetchBooksThen_items isRecommended s b bs
      refine ⟨by rw [hc], fun _ => ?_⟩
      rw [hc, hb]
      have hlen : 0 < (if isRecommended then jsSort ratingCompare (b :: bs) else b :: bs).length := by
        cases isRecommended
        · simp
        · simp only [if_true]
          rw [(jsSort_perm ratingCompare (b :: bs)).length_eq]
          simp
      unfold resultsPerPage
      omega

theorem pageInvariant_nextPage (s : State) (h : PageInvariant s) :
    PageInvariant (nextPage s) := by
  unfold nextPage
  split
  · rename_i hroom
    refine ⟨?_, fun _ => ?_⟩
    · show 0 ≤ s.currentPage + 1
      have := h.1
      omega
    · show (s.currentPage + 1) * resultsPerPage < (s.booksData.length : Int)
      exact hroom
  · exact h

theorem pageInvariant_prevPage (s : State) (h : PageInvariant s) :
    PageInvariant (prevPage s) := by
  unfold prevPage
  split
  · rename_i hpos
    refine ⟨?_, fun hne => ?_⟩
    · show 0 ≤ s.currentPage - 1
      omega
    · show (s.currentPage - 1) * resultsPerPage < (s.booksData.length : Int)
      have := h.2 hne
      unfold resultsPerPage at *
      omega
  · exact h

/-- Every handler keeps the state invariant. -/
theorem pageInvariant_step (s : State) (e : Event) (h : PageInvariant s) :
    PageInvariant (step s e) := by
  cases e with
  | pageLoad =>
    exact pageInvariant_of_keeps s _ (fetchBooks_keeps _ _ s).1 (fetchBooks_keeps _ _ s).2 h
  | search text =>
    exact pageInvariant_of_keeps s _ (searchBooks_keeps text s).1 (searchBooks_keeps text s).2 h
  | filter genre language =>
    exact pageInvariant_of_keeps s _ (checkFilters_keeps genre language s).1
      (checkFilters_keeps genre language s).2 h
  | response isRecommended r => exact pageInvariant_fetchBooksThen isRecommended r s h
  | next => exact pageInvariant_nextPage s h
  | prev => exact pageInvariant_prevPage s h

theorem pageInvariant_run (es : List Event) (s : State) (h : PageInvariant s) :
    PageInvariant (run es s) := by
  induction es generalizing s with
  | nil => exact h
  | cons e es ih => exact ih (step s e) (pageInvariant_step s e h)

/-- C5. In every state reached from an initial state (page index 0, no
results) by any sequence of page-load, search, filter, fetch-response
(with items, without items, or failed), next-page and previous-page events, the
page index is not negative and, when there are results, `currentPage * 9` is
less than their number. -/
theorem page_index_invariant (s0 : State) (hc : s0.currentPage = 0) (hb : s0.booksData = [])
    (es : List Event) :
    0 ≤ (run es s0).currentPage ∧
    ((run es s0).booksData ≠ [] →
      (run es s0).currentPage * 9 < (run es s0).booksData.length) := by
  have h0 : PageInvariant s0 := ⟨by omega, fun hne => absurd hb hne⟩
  exact pageInvariant_run es s0 h0

/-- C5, witness: a session that loads twenty books, pages forward twice and
then tries a third time is on page index 2 with 18 < 20. -/
theorem page_index_invariant_witness :
    initialState.currentPage = 0 ∧ initialState.booksData = [] ∧
    (run sessionEvents initialState).currentPage = 2 ∧
    (run sessionEvents initialState).booksData.length = 20 ∧
    (0 ≤ (run sessionEvents initialState).currentPage ∧
      ((run sessionEvents initialState).booksData ≠ [] →
        (run sessionEvents initialState).currentPage * 9 <
          (run sessionEvents initialState).booksData.length)) :=
  ⟨rfl, rfl, by decide, by decide, page_index_invariant initialState rfl rfl sessionEvents⟩

/-- C4. The state after a search returned twenty books and the user moved to
the second page has page index 1; when the next request then returns no items,
the results are emptied and "next" is disabled, but the page index stays 1 and
"previous" stays enabled, so a click on it still moves the page index. -/
theorem empty_response_keeps_page_index :
    secondPageOfTwenty.currentPage = 1 ∧
    secondPageOfTwenty.booksData.length = 20 ∧
    (step secondPageOfTwenty (Event.response false (FetchResult.parsed (some [])))).booksData = [] ∧
    (step secondPageOfTwenty (Event.response false (FetchResult.parsed (some [])))).nextDisabled
      = true ∧
    (step secondPageOfTwenty (Event.response false (FetchResult.parsed (some [])))).currentPage
      = 1 ∧
    (step secondPageOfTwenty (Event.response false (FetchResult.parsed none))).currentPage = 1 ∧
    (step secondPageOfTwenty (Event.response false (FetchResult.parsed (some [])))).prevDisabled
      = false ∧
    (prevPage (step secondPageOfTwenty
      (Event.response false (FetchResult.parsed (some []))))).currentPage = 0 ∧
    (prevPage (step secondPageOfTwenty
      (Event.response false (FetchResult.parsed (some []))))).resultsView
      = ResultsView.cards [] := by
  decide

/-! ## Search -/

theorem isAsciiDigit_eq_isDigit (c : Char) : isAsciiDigit c = c.isDigit := by
  rw [Bool.eq_iff_iff]
  simp only [isAsciiDigit, Char.isDigit, Bool.and_eq_true, decide_eq_true_eq]
  exact Iff.rfl

theorem string_ne_empty_iff (q : String) : q ≠ "" ↔ q.data ≠ [] := by
  constructor
  · intro h hd
    apply h
    cases q
    simp_all
  · intro h hq
    apply h
    rw [hq]

/-- The regular-expression test holds exactly for a non-empty string of digits. -/
theorem allDigits_iff (q : String) :
    allDigits q = true ↔ q ≠ "" ∧ ∀ c ∈ q.data, c.isDigit = true := by
  unfold allDigits
  rw [string_ne_empty_iff]
  simp [isAsciiDigit_eq_isDigit, List.isEmpty_iff]

/-- The trimmed text is empty exactly when the text is all white space. -/
theorem jsTrim_eq_empty_iff (text : String) :
    jsTrim text = "" ↔ ∀ c ∈ text.data, isJsWhitespace c = true := by
  have hmk : jsTrim text = "" ↔ jsTrimChars text.data = [] := by
    constructor
    · intro h
      have := congrArg String.data h
      exact this
    · intro h
      unfold jsTrim
      rw [h]
  rw [hmk]
  unfold jsTrimChars
  rw [List.reverse_eq_nil_iff, List.dropWhile_eq_nil_iff]
  constructor
  · intro h
    have hnil : text.data.dropWhile isJsWhitespace = [] := by
      cases hd : text.data.dropWhile isJsWhitespace with
      | nil => rfl
      | cons c cs =>
        have hc : isJsWhitespace c = true := h c (by rw [hd]; simp)
        have hhead := List.head_dropWhile_not isJsWhitespace text.data (by rw [hd]; simp)
        simp only [hd, List.head_cons] at hhead
        rw [hc] at hhead
        exact absurd hhead (by simp)
    exact List.dropWhile_eq_nil_iff.1 hnil
  · intro h c hc
    rw [List.mem_reverse] at hc
    exact h c ((List.dropWhile_sublist _).subset hc)

/-- C6. `searchBooks` decides on the trimmed text: when it is empty the call is
the recommended-books call (query "bestseller", rating sort on); when it is
not empty and all its characters are digits the call raises the alert, issues
no request and returns the state as it was; in every other case it issues one
request for the trimmed text with the rating sort off. -/
theorem searchBooks_decision (text : String) (s : State) :
    (jsTrim text = "" →
      searchBooks text s = fetchHighestRatedBooks s ∧
      fetchHighestRatedBooks s =
        ({ s with resultsView := ResultsView.loading },
         [Effect.fetch
           "https://www.googleapis.com/books/v1/volumes?q=bestseller&maxResults=40" true])) ∧
    (jsTrim text ≠ "" → (∀ c ∈ (jsTrim text).data, c.isDigit = true) →
      searchBooks text s = (s, [Effect.alert "Please input a valid book title"])) ∧
    (jsTrim text ≠ "" → (∃ c ∈ (jsTrim text).data, c.isDigit = false) →
      searchBooks text s =
        ({ s with resultsView := ResultsView.loading },
         [Effect.fetch
           ("https://www.googleapis.com/books/v1/volumes?q=" ++ jsTrim text ++ "&maxResults=40")
           false])) := by
  refine ⟨fun h => ⟨?_, ?_⟩, fun h hd => ?_, fun h hd => ?_⟩
  · unfold searchBooks
    simp only [h, if_true]
  · have hurl : fetchUrl "bestseller" =
        "https://www.googleapis.com/books/v1/volumes?q=bestseller&maxResults=40" := by decide
    simp only [fetchHighestRatedBooks, fetchBooks, hurl]
  · have hall : allDigits (jsTrim text) = true := (allDigits_iff _).2 ⟨h, hd⟩
    unfold searchBooks
    simp only [h, hall, if_false, if_true]
  · have hall : ¬ allDigits (jsTrim text) = true := by
      intro hall
      obtain ⟨c, hc, hcd⟩ := hd
      have := ((allDigits_iff _).1 hall).2 c hc
      rw [this] at hcd
      exact Bool.noConfusion hcd
    unfold searchBooks
    simp only [h, hall, if_false]
    rfl

/-- C6, witness: the text "42" raises the alert and changes nothing, the empty
text is the recommended-books call, and " dune " is searched as "dune". -/
theorem searchBooks_decision_witness :
    searchBooks "42" twentyOnPageTwo =
      (twentyOnPageTwo, [Effect.alert "Please input a valid book title"]) ∧
    searchBooks "" twentyOnPageTwo = fetchHighestRatedBooks twentyOnPageTwo ∧
    searchBooks " dune " twentyOnPageTwo =
      ({ twentyOnPageTwo with resultsView := ResultsView.loading },
       [Effect.fetch "https://www.googleapis.com/books/v1/volumes?q=dune&maxResults=40" false]) :=
  ⟨(searchBooks_decision "42" twentyOnPageTwo).2.1 (by decide) (by decide),
    ((searchBooks_decision "" twentyOnPageTwo).1 (by decide)).1,
    by decide⟩

/-! ## Filters -/

theorem checkFilters_of_changed (genre language : String) (s : State)
    (h : genre ≠ s.lastGenre ∨ language ≠ s.lastLanguage) :
    checkFilters genre language s =
      updateBooks { s with lastGenre := genre, lastLanguage := language } := by
  unfold checkFilters
  rw [if_pos h]

theorem checkFilters_of_same (genre language : String) (s : State)
    (h : ¬ (genre ≠ s.lastGenre ∨ language ≠ s.lastLanguage)) :
    checkFilters genre language s = (s, []) := by
  unfold checkFilters
  rw [if_neg h]

theorem updateBooks_effects_ne_nil (s : State) : (updateBooks s).2 ≠ [] := by
  simp [updateBooks, fetchBooks]

theorem checkFilters_records (genre language : String) (s : State) :
    (checkFilters genre language s).1.lastGenre = genre ∧
    (checkFilters genre language s).1.lastLanguage = language := by
  by_cases h : genre ≠ s.lastGenre ∨ language ≠ s.lastLanguage
  · rw [checkFilters_of_changed genre language s h]
    exact ⟨rfl, rfl⟩
  · rw [checkFilters_of_same genre language s h]
    rw [not_or, not_not, not_not] at h
    exact ⟨h.1.symm, h.2.symm⟩

/-- C7, as the claim words it, fails: after the filters were applied with one
pair, then with another, the call with the first pair is not a no-op; it
issues a request again. -/
theorem checkFilters_refires_after_change_and_back :
    ¬ ∀ (s : State) (g l g' l' : String),
      checkFilters g l (checkFilters g' l' (checkFilters g l s).1).1 =
        ((checkFilters g' l' (checkFilters g l s).1).1, []) := by
  intro h
  have h1 := h initialState "fiction" "en" "history" "en"
  revert h1
  decide

/-- C7, amended. `checkFilters` issues a request exactly when the genre or the
language differs from the pair applied last; when neither differs it issues
nothing and returns the state as it was.  So the second of two calls with the
same pair that follow one another is a no-op, whatever happened before them,
and a call with another pair in between makes the call back to the first pair
issue a request again. -/
theorem checkFilters_change_detection (g l : String) (s : State) :
    ((checkFilters g l s).2 ≠ [] ↔ (g ≠ s.lastGenre ∨ l ≠ s.lastLanguage)) ∧
    (g = s.lastGenre → l = s.lastLanguage → checkFilters g l s = (s, [])) ∧
    checkFilters g l (checkFilters g l s).1 = ((checkFilters g l s).1, []) ∧
    (∀ g' l' : String, (g' ≠ g ∨ l' ≠ l) →
      (checkFilters g l (checkFilters g' l' (checkFilters g l s).1).1).2 ≠ []) := by
  have hiff : ∀ (a b : String) (t : State),
      (checkFilters a b t).2 ≠ [] ↔ (a ≠ t.lastGenre ∨ b ≠ t.lastLanguage) := by
    intro a b t
    by_cases h : a ≠ t.lastGenre ∨ b ≠ t.lastLanguage
    · rw [checkFilters_of_changed a b t h]
      exact ⟨fun _ => h, fun _ => updateBooks_effects_ne_nil _⟩
    · rw [checkFilters_of_same a b t h]
      exact ⟨fun hne => absurd rfl hne, fun hc => absurd hc h⟩
  refine ⟨hiff g l s, ?_, ?_, ?_⟩
  · intro hg hl
    apply checkFilters_of_same
    rw [not_or, not_not, not_not]
    exact ⟨hg, hl⟩
  · apply checkFilters_of_same
    rw [not_or, not_not, not_not]
    exact ⟨(checkFilters_records g l s).1.symm, (checkFilters_records g l s).2.symm⟩
  · intro g' l' hdiff
    rw [hiff]
    obtain ⟨hg, hl⟩ := checkFilters_records g' l' (checkFilters g l s).1
    rw [hg, hl]
    rcases hdiff with hd | hd
    · exact Or.inl (fun e => hd e.symm)
    · exact Or.inr (fun e => hd e.symm)

/-- C7, witness: from the initial state the pair ("fiction", "en") fires, the
same pair again does not, and after ("history", "en") it fires again. -/
theorem checkFilters_change_detection_witness :
    (checkFilters "fiction" "en" initialState).2 ≠ [] ∧
    checkFilters "fiction" "en" (checkFilters "fiction" "en" initialState).1 =
      ((checkFilters "fiction" "en" initialState).1, []) ∧
    (checkFilters "fiction" "en"
      (checkFilters "history" "en" (checkFilters "fiction" "en" initialState).1).1).2 ≠ [] :=
  ⟨(checkFilters_change_detection "fiction" "en" initialState).1.2 (by decide),
    (checkFilters_change_detection "fiction" "en" initialState).2.2.1,
    (checkFilters_change_detection "fiction" "en" initialState).2.2.2 "history" "en"
      (by decide)⟩

/-- C8. When `checkFilters` fires, it issues one request, with the rating sort
off, for the URL made of the base, the query and "&maxResults=40", where the
query is the genre, or "bestseller" when the genre is empty, followed by
"&langRestrict=" and the language exactly when the language is not empty. -/
theorem checkFilters_request_url (g l : String) (s : State)
    (h : g ≠ s.lastGenre ∨ l ≠ s.lastLanguage) :
    (checkFilters g l s).2 =
      [Effect.fetch
        ("https://www.googleapis.com/books/v1/volumes?q=" ++
          ((if g = "" then "bestseller" else g) ++
            (if l = "" then "" else "&langRestrict=" ++ l)) ++
          "&maxResults=40")
        false] := by
  rw [checkFilters_of_changed g l s h]
  unfold updateBooks fetchBooks fetchUrl
  by_cases hl : l = ""
  · simp [hl]
  · simp [hl]

/-- C8, witness: genre "fiction" with language "en", and no genre with
language "fr". -/
theorem checkFilters_request_url_witness :
    ("fiction" ≠ initialState.lastGenre ∨ "en" ≠ initialState.lastLanguage) ∧
    (checkFilters "fiction" "en" initialState).2 =
      [Effect.fetch
        "https://www.googleapis.com/books/v1/volumes?q=fiction&langRestrict=en&maxResults=40"
        false] ∧
    (checkFilters "" "fr" initialState).2 =
      [Effect.fetch
        "https://www.googleapis.com/books/v1/volumes?q=bestseller&langRestrict=fr&maxResults=40"
        false] ∧
    (checkFilters "poetry" "" initialState).2 =
      [Effect.fetch
        "https://www.googleapis.com/books/v1/volumes?q=poetry&maxResults=40"
        false] :=
  ⟨by decide,
    (checkFilters_request_url "fiction" "en" initialState (by decide)).trans (by decide),
    by decide, by decide⟩

/-! ## Cards -/

theorem intercalate_go_eq (sep : String) (l : List String) (acc : String) :
    String.intercalate.go acc sep l =
      match l with
      | [] => acc
      | b :: bs => acc ++ sep ++ jsJoin sep (b :: bs) := by
  induction l generalizing acc with
  | nil => rfl
  | cons b bs ih =>
    show String.intercalate.go (acc ++ sep ++ b) sep bs = _
    rw [ih]
    cases bs with
    | nil => rfl
    | cons c cs =>
      show acc ++ sep ++ b ++ sep ++ jsJoin sep (c :: cs) =
        acc ++ sep ++ (b ++ sep ++ jsJoin sep (c :: cs))
      simp only [String.append_assoc]

/-- `join` is the library's `intercalate`. -/
theorem jsJoin_eq_intercalate (sep : String) (l : List String) :
    jsJoin sep l = sep.intercalate l := by
  cases l with
  | nil => rfl
  | cons a as =>
    show _ = String.intercalate.go a sep as
    rw [intercalate_go_eq]
    cases as with
    | nil => rfl
    | cons b bs => rfl

/-- C9, as the claim words it, fails: a book whose rating is the number 0 has a
rating and is shown with "No Rating", and a book whose title is the empty
string is shown with "No Title Available". -/
theorem bookCard_present_but_falsy :
    ¬ ((∀ (book : Book) (r : ℚ), book.volumeInfo.averageRating = some r →
          (bookCard book).rating = RatingLabel.stars r) ∨
       (∀ (book : Book) (t : String), book.volumeInfo.title = some t →
          (bookCard book).title = t)) := by
  intro h
  rcases h with h | h
  · have h1 := h (rated "Dune" (some 0)) 0 rfl
    simp [bookCard, rated] at h1
  · have h1 := h (rated "" none) "" rfl
    revert h1
    decide

/-- C9, amended. The card fields of a book: the title is the book's title when
it has a non-empty one and "No Title Available" when the title is missing or
empty; the authors are the book's authors joined by ", ", or "Unknown Author"
when they are missing; the thumbnail is `imageLinks.thumbnail` when the book
has one, and the placeholder URL when `imageLinks` is missing; the info link is
`infoLink` when it is present and non-empty and "#" when it is missing or
empty; the rating is the average rating with the star mark when the book has a
rating other than 0 and "No Rating" when the rating is missing or 0.  The cards
`displayBooks` renders are these cards of the books on the current page. -/
theorem bookCard_defaults (book : Book) :
    (∀ t : String, book.volumeInfo.title = some t → t ≠ "" → (bookCard book).title = t) ∧
    (book.volumeInfo.title = none ∨ book.volumeInfo.title = some "" →
      (bookCard book).title = "No Title Available") ∧
    (∀ names : List String, book.volumeInfo.authors = some names →
      (bookCard book).authors = ", ".intercalate names) ∧
    (book.volumeInfo.authors = none → (bookCard book).authors = "Unknown Author") ∧
    (∀ (links : ImageLinks) (t : String), book.volumeInfo.imageLinks = some links →
      links.thumbnail = some t → (bookCard book).thumbnail = some t) ∧
    (book.volumeInfo.imageLinks = none →
      (bookCard book).thumbnail = some "https://via.placeholder.com/120x180") ∧
    (∀ u : String, book.volumeInfo.infoLink = some u → u ≠ "" →
      (bookCard book).infoLink = u) ∧
    (book.volumeInfo.infoLink = none ∨ book.volumeInfo.infoLink = some "" →
      (bookCard book).infoLink = "#") ∧
    (∀ r : ℚ, book.volumeInfo.averageRating = some r → r ≠ 0 →
      (bookCard book).rating = RatingLabel.stars r) ∧
    (book.volumeInfo.averageRating = none ∨ book.volumeInfo.averageRating = some 0 →
      (bookCard book).rating = RatingLabel.noRating) ∧
    (∀ s : State,
      (displayBooks s).resultsView = ResultsView.cards ((getCurrentPage s).map bookCard)) := by
  refine ⟨?_, ?_, ?_, ?_, ?_, ?_, ?_, ?_, ?_, ?_, fun _ => rfl⟩
  · intro t h ht
    simp [bookCard, strOr, h, ht]
  · intro h
    rcases h with h | h <;> simp [bookCard, strOr, h]
  · intro names h
    simp [bookCard, h, jsJoin_eq_intercalate]
  · intro h
    simp [bookCard, h]
  · intro links t h ht
    simp [bookCard, h, ht]
  · intro h
    simp [bookCard, h]
  · intro u h hu
    simp [bookCard, strOr, h, hu]
  · intro h
    rcases h with h | h <;> simp [bookCard, strOr, h]
  · intro r h hr
    simp [bookCard, h, hr]
  · intro h
    rcases h with h | h <;> simp [bookCard, h]

/-- C9, witness: a fully described book and a book without any field. -/
theorem bookCard_defaults_witness :
    bookCard fullBook =
      { title := "Dune", authors := "Frank Herbert, Brian Herbert",
        thumbnail := some "http://books.example/dune.jpg",
        infoLink := "http://books.example/dune",
        rating := RatingLabel.stars (9 / 2) } ∧
    bookCard bareBook =
      { title := "No Title Available", authors := "Unknown Author",
        thumbnail := some "https://via.placeholder.com/120x180",
        infoLink := "#", rating := RatingLabel.noRating } ∧
    (bookCard fullBook).title = "Dune" :=
  ⟨by norm_num [bookCard, fullBook, strOr, jsJoin]; decide, by decide,
    (bookCard_defaults fullBook).1 "Dune" rfl (by decide)⟩

/-! ## Browsing through all pages -/

theorem nextPage_currentPage_of_room (s : State)
    (h : (s.currentPage + 1) * resultsPerPage < s.booksData.length) :
    (nextPage s).currentPage = s.currentPage + 1 := by
  rw [nextPage_of_room s h]
  rfl

/-- Browsing from page index `k` with enough clicks allowed: the pages from `k`
on are visited, one click apart, the last visited state is one where "next"
does nothing, and the page slices put together are the results from index
`k*9` on. -/
theorem visit_from (fuel : Nat) (s : State) (k : Nat) (hk : s.currentPage = k)
    (hlt : k * 9 < s.booksData.length)
    (hfuel : (s.booksData.length + 8) / 9 - 1 - k ≤ fuel) :
    (visit fuel s).length = (s.booksData.length + 8) / 9 - k ∧
    (visit fuel s).head? = some s ∧
    List.Chain' (fun a b => b = nextPage a ∧ nextPage a ≠ a) (visit fuel s) ∧
    (∀ t ∈ (visit fuel s).getLast?, nextPage t = t) ∧
    ((visit fuel s).map getCurrentPage).flatten = s.booksData.drop (k * 9) := by
  induction fuel generalizing s k with
  | zero =>
    have hlast : ¬ (s.currentPage + 1) * resultsPerPage < s.booksData.length := by
      unfold resultsPerPage
      omega
    have hpage : getCurrentPage s = s.booksData.drop (k * 9) := by
      rw [getCurrentPage_nonneg s (by omega), hk, Int.toNat_ofNat]
      apply List.take_of_length_le
      rw [List.length_drop]
      unfold resultsPerPage at hlast
      omega
    refine ⟨?_, rfl, ?_, ?_, ?_⟩
    · show 1 = _
      omega
    · exact List.chain'_singleton s
    · intro t ht
      cases ht
      exact nextPage_of_no_room s hlast
    · show getCurrentPage s ++ [].flatten = _
      rw [hpage]
      simp
  | succ fuel ih =>
    by_cases hroom : (s.currentPage + 1) * resultsPerPage < s.booksData.length
    · have hne : ¬ nextPage s = s := fun h => (nextPage_eq_self_iff s).1 h hroom
      have hv : visit (fuel + 1) s = s :: visit fuel (nextPage s) := by
        show (if nextPage s = s then [s] else s :: visit fuel (nextPage s)) = _
        rw [if_neg hne]
      have hk1 : (nextPage s).currentPage = ((k + 1 : Nat) : Int) := by
        rw [nextPage_currentPage_of_room s hroom, hk]
        push_cast
        rfl
      have hb : (nextPage s).booksData = s.booksData := nextPage_booksData s
      have hlt1 : (k + 1) * 9 < (nextPage s).booksData.length := by
        rw [hb]
        unfold resultsPerPage at hroom
        omega
      obtain ⟨h1, h2, h3, h4, h5⟩ := ih (nextPage s) (k + 1) hk1 hlt1 (by rw [hb]; omega)
      rw [hb] at h1 h5
      have hpage : getCurrentPage s = (s.booksData.drop (k * 9)).take 9 := by
        rw [getCurrentPage_nonneg s (by omega), hk, Int.toNat_ofNat]
      refine ⟨?_, ?_, ?_, ?_, ?_⟩
      · rw [hv, List.length_cons, h1]
        unfold resultsPerPage at hroom
        omega
      · rw [hv]
        rfl
      · rw [hv]
        cases hrest : visit fuel (nextPage s) with
        | nil => exact List.chain'_singleton s
        | cons t ts =>
          rw [hrest] at h2 h3
          rw [List.chain'_cons]
          refine ⟨⟨?_, hne⟩, h3⟩
          simp only [List.head?_cons, Option.some.injEq] at h2
          exact h2
      · rw [hv]
        cases hrest : visit fuel (nextPage s) with
        | nil =>
          rw [hrest] at h2
          exact absurd h2 (by simp)
        | cons t ts =>
          rw [hrest] at h4
          rw [List.getLast?_cons_cons]
          exact h4
      · rw [hv, List.map_cons, List.flatten_cons, h5, hpage]
        have hdd : s.booksData.drop ((k + 1) * 9) = (s.booksData.drop (k * 9)).drop 9 := by
          rw [List.drop_drop]
          congr 1
          omega
        rw [hdd, List.take_append_drop]
    · have hv : visit (fuel + 1) s = [s] := by
        show (if nextPage s = s then [s] else s :: visit fuel (nextPage s)) = _
        rw [if_pos (nextPage_of_no_room s hroom)]
      have hpage : getCurrentPage s = s.booksData.drop (k * 9) := by
        rw [getCurrentPage_nonneg s (by omega), hk, Int.toNat_ofNat]
        apply List.take_of_length_le
        rw [List.length_drop]
        unfold resultsPerPage at hroom
        omega
      rw [hv]
      refine ⟨?_, rfl, List.chain'_singleton s, ?_, ?_⟩
      · show 1 = _
        unfold resultsPerPage at hroom
        omega
      · intro t ht
        cases ht
        exact nextPage_of_no_room s hroom
      · show getCurrentPage s ++ [].flatten = _
        rw [hpage]
        simp

/-- C10. With a non-empty list of `n` results and the page index at 0,
clicking "next" until the click does nothing visits exactly `ceil(n/9)` pages
(the number `p` with `9*(p-1) < n ≤ 9*p`): the walk starts at the given state, each state is the `nextPage` of the one
before and differs from it, the walk ends in a state where `nextPage` does
nothing, and the page slices of the visited states, put together in the order
of the visit, are the results. -/
theorem browse_covers_results (s : State) (hc : s.currentPage = 0) (hne : s.booksData ≠ []) :
    (browse s).length = (s.booksData.length + 8) / 9 ∧
    (9 * ((browse s).length - 1) < s.booksData.length ∧
      s.booksData.length ≤ 9 * (browse s).length) ∧
    (browse s).head? = some s ∧
    List.Chain' (fun a b => b = nextPage a ∧ nextPage a ≠ a) (browse s) ∧
    (∀ t ∈ (browse s).getLast?, nextPage t = t) ∧
    ((browse s).map getCurrentPage).flatten = s.booksData := by
  have hpos : 0 < s.booksData.length := List.length_pos.2 hne
  have h := visit_from s.booksData.length s 0 (by rw [hc]; rfl) (by omega) (by omega)
  simp only [Nat.sub_zero, Nat.zero_mul, List.drop_zero] at h
  obtain ⟨h1, h2, h3, h4, h5⟩ := h
  refine ⟨h1, ?_, h2, h3, h4, h5⟩
  unfold browse
  omega

/-- C10, witness: twenty results are browsed in three pages of 9, 9 and 2. -/
theorem browse_covers_results_witness :
    twentyOnPageZero.currentPage = 0 ∧ twentyOnPageZero.booksData ≠ [] ∧
    (browse twentyOnPageZero).length = 3 ∧
    ((browse twentyOnPageZero).map (fun t => (getCurrentPage t).length)) = [9, 9, 2] ∧
    ((browse twentyOnPageZero).map getCurrentPage).flatten = twentyOnPageZero.booksData :=
  ⟨rfl, by decide, by decide, by decide,
    (browse_covers_results twentyOnPageZero rfl (by decide)).2.2.2.2.2⟩

end BookFinder
